import Mathlib

/-!
Verification of the buildserver build-orchestration core.

This file gives a shallow embedding, in Lean 4, of the parts of the Go
repository `imyashkale/buildserver` that the checked properties talk about:

* `internal/services/logger.go` — the structured build log with its
  400 KiB persistence budget (`BuildLogger.GetLogsWithSizeLimit`);
* `internal/queue/queue.go` — the channel-based `JobQueue` (`Enqueue`,
  `Close`) and the `WorkerPool` (`worker`, `Stop`);
* the pipeline service (`PipelineService.ExecuteBuild` and its helpers
  `getImageName`, `getTempDir`, `markStageCompleted`, `markStageFailed`,
  `stageClone` … `stagePushImage`, `cloneRepository`,
  `injectGitHubToken`), together with `ECRService.GetRepositoryURI` and
  `GetOrCreateRepository` for the names it computes;
* `internal/handlers/build.go` — the synchronous `InitiateBuild`
  handler — and the asynchronous variant of the same handler that
  enqueues instead.

Conventions of the embedding:

* Go `time.Now()` is collapsed to a single environment value `now : Nat`:
  no checked property depends on distinct wall-clock values, only on
  whether a timestamp field is set at all.
* Results of external calls (DynamoDB reads/writes, subprocess exit
  statuses, subprocess output, ECR API calls, token decryption) are
  supplied by an explicit environment record; the concrete error text a
  failed subprocess or AWS call produces is abstracted by a fixed string
  (the Go code only forwards those strings, it never inspects them).
* Go channel operations are modelled by their buffer-list semantics; a
  `select` is modelled by the set of its ready cases, a send on a closed
  channel being a ready case whose execution panics, and a receive from
  a closed drained channel yielding the zero value with `ok = false`.
* Go maps updated by assignment are modelled as association lists
  updated in place.
-/

namespace BuildServer

/-! ## Structured build log (internal/services/logger.go) -/

/-- One entry of the structured build log (`models.BuildLogEntry`). -/
structure BuildLogEntry where
  timestamp : Nat
  stage : String
  level : String
  message : String
deriving DecidableEq

/-- Go constant `LogSizeLimit = 400 * 1024` (400 KiB). -/
def LogSizeLimit : Nat := 400 * 1024

/-- Estimated serialized size of one entry, exactly the Go estimate
`entrySize := 135 + len(log.Message)`. -/
def entrySize (e : BuildLogEntry) : Nat := 135 + e.message.length

/-- Sum of the estimated sizes of a list of entries. -/
def totalEstimatedSize (l : List BuildLogEntry) : Nat :=
  (l.map entrySize).sum

/-- The synthetic entry `GetLogsWithSizeLimit` appends when it truncates. -/
def truncationNotice (now : Nat) : BuildLogEntry :=
  { timestamp := now
    stage := "system"
    level := "warning"
    message := "Log output exceeded size limit. Older logs truncated." }

/-- The loop body of `BuildLogger.GetLogsWithSizeLimit`: walk the entries
earliest first, keep an entry while `totalSize + entrySize` stays within
`LogSizeLimit`, and on the first overflow append the truncation notice
and stop (`break`), dropping all later entries. -/
def getLogsWithSizeLimitAux (now : Nat) : Nat → List BuildLogEntry → List BuildLogEntry
  | _, [] => []
  | total, e :: rest =>
    if LogSizeLimit < total + entrySize e then
      [truncationNotice now]
    else
      e :: getLogsWithSizeLimitAux now (total + entrySize e) rest

/-- Go `BuildLogger.GetLogsWithSizeLimit`: the bounded (persisted) view of
the log, starting from a zero running total. -/
def GetLogsWithSizeLimit (now : Nat) (logs : List BuildLogEntry) : List BuildLogEntry :=
  getLogsWithSizeLimitAux now 0 logs

/-- A minimal log entry with an empty message; its estimated size is the
fixed 135-byte overhead. -/
def padEntry : BuildLogEntry := { timestamp := 0, stage := "s", level := "info", message := "" }

/-! ## Job queue (internal/queue/queue.go) -/

/-- The unit of work submitted through the queue (`queue.BuildJob`). -/
structure BuildJob where
  deploymentID : String
  serverID : String
  userID : String
  branch : String
  commitHash : String
deriving DecidableEq

/-- The `JobQueue` struct: a buffered channel `jobs` (modelled by its
FIFO buffer plus a closed flag and its capacity) and an unbuffered
signalling channel `done` (modelled by its closed flag). -/
structure JobQueue where
  buffer : List BuildJob
  cap : Nat
  jobsClosed : Bool
  doneClosed : Bool
deriving DecidableEq

/-- Go `NewJobQueue(bufferSize)`. -/
def NewJobQueue (bufferSize : Nat) : JobQueue :=
  { buffer := [], cap := bufferSize, jobsClosed := false, doneClosed := false }

/-- Go `JobQueue.Close`: under the mutex, if `done` is already closed do
nothing, else close both `done` and `jobs`. -/
def JobQueue.Close (q : JobQueue) : JobQueue :=
  if q.doneClosed then q else { q with doneClosed := true, jobsClosed := true }

/-- Possible outcomes of one `Enqueue` call. -/
inductive EnqueueOutcome
  | accepted (q : JobQueue)
  | queueClosedErr
  | panicSendOnClosed
  | blocked
deriving DecidableEq

/-- Go `JobQueue.Enqueue`: a `select` between sending the job on `jobs`
and receiving from `done`. A send on an open channel is ready iff the
buffer has room and yields success; a send on a CLOSED channel is a
ready case whose execution panics (`send on closed channel`); the `done`
receive is ready iff `done` is closed and yields `ErrQueueClosed`. The
select picks nondeterministically among ready cases, blocking when none
is ready, so the semantics of the call is the list of its possible
outcomes. -/
def JobQueue.enqueueOutcomes (q : JobQueue) (j : BuildJob) : List EnqueueOutcome :=
  let send :=
    if q.jobsClosed then [EnqueueOutcome.panicSendOnClosed]
    else if q.buffer.length < q.cap then
      [EnqueueOutcome.accepted { q with buffer := q.buffer ++ [j] }]
    else []
  let done := if q.doneClosed then [EnqueueOutcome.queueClosedErr] else []
  match send ++ done with
  | [] => [EnqueueOutcome.blocked]
  | l => l

/-- A fixed job used as concrete input in several evaluations. -/
def jobA : BuildJob :=
  { deploymentID := "d1", serverID := "s1", userID := "u1"
    branch := "main", commitHash := "a1b2c3d4e5f6a7b8" }

/-! ## Worker pool (internal/queue/queue.go, `WorkerPool`)

The workers of the pool share the `jobs` channel of the queue and the own
`done` channel (closed by `WorkerPool.Stop`). Each worker loops on a
`select` between `job, ok := <-jobs` and `<-done`. Receiving from the
`jobs` channel yields a buffered job while any remain; once the channel
is closed AND drained it yields `ok = false` and the worker returns —
this is the only way a receive reports closure. If the `done`
channel of the pool is closed, a worker may instead take that case and return at
once, whatever is still buffered. The global state tracks the shared
buffer, the two closed flags, the number of workers still running, and
the jobs delivered so far (each receive hands the head of the buffer to
exactly one worker). -/

structure PoolState where
  buffer : List BuildJob
  jobsClosed : Bool
  stopClosed : Bool
  active : Nat
  delivered : List BuildJob
deriving DecidableEq

/-- One scheduling step of the worker pool. `deliver`: a running worker
receives the head of the buffer. `exitDrained`: a running worker
observes the `jobs` channel closed and drained (`ok = false`) and
returns. `exitStop`: with the `done` channel of the pool closed
(`WorkerPool.Stop`), a running worker takes the `<-wp.done` case and
returns immediately, regardless of the buffer. -/
inductive PoolStep : PoolState → PoolState → Prop
  | deliver (j : BuildJob) (b del : List BuildJob) (jc sc : Bool) (a : Nat) :
      PoolStep ⟨j :: b, jc, sc, a + 1, del⟩ ⟨b, jc, sc, a + 1, del ++ [j]⟩
  | exitDrained (del : List BuildJob) (sc : Bool) (a : Nat) :
      PoolStep ⟨[], true, sc, a + 1, del⟩ ⟨[], true, sc, a, del⟩
  | exitStop (b del : List BuildJob) (jc : Bool) (a : Nat) :
      PoolStep ⟨b, jc, true, a + 1, del⟩ ⟨b, jc, true, a, del⟩

/-- Reachability by any finite interleaving of worker steps. -/
def PoolSteps : PoolState → PoolState → Prop :=
  Relation.ReflTransGen PoolStep

/-! ## Worker failure isolation (internal/queue/queue.go, `worker`)

The body of `WorkerPool.worker` calls `handler(job)` with no `recover`:
a returned error is logged (or discarded, `_ = handler(job)`) and the
loop continues with the next job, while a panic raised inside the
handler propagates out of the worker goroutine and terminates it. A
handler invocation is modelled by its observable result. -/

inductive HandlerResult
  | success
  | failure (msg : String)
  | panicked (msg : String)
deriving DecidableEq

/-- Outcome of running one worker over a sequence of delivered jobs:
which jobs the worker processed, and whether it was still running (able
to keep dequeuing) afterwards. -/
structure WorkerRun where
  processed : List BuildJob
  alive : Bool
deriving DecidableEq

/-- The worker loop (`for { select { case job ... err := handler(job)
... } }`) applied to the sequence of jobs it receives: an error result
is swallowed and the loop continues; an unrecovered panic terminates the
worker, leaving the remaining jobs unprocessed. -/
def workerLoop (handler : BuildJob → HandlerResult) : List BuildJob → WorkerRun
  | [] => { processed := [], alive := true }
  | j :: rest =>
    match handler j with
    | HandlerResult.panicked _ => { processed := [j], alive := false }
    | _ =>
      let r := workerLoop handler rest
      { processed := j :: r.processed, alive := r.alive }

/-! ## Build pipeline (`PipelineService.ExecuteBuild` and helpers)

The pipeline mutates a `models.Deployment` record, appends to the build
logger, shells out to `git` and `docker`, and writes snapshots of the
record through `deploymentRepo.Update`. Results of all external calls
come from an explicit environment; the concrete error text of a failed
subprocess or AWS call, which the Go code only forwards, is abstracted
by the fixed strings below. -/

/-- Go `models.BuildStageStatus`. -/
structure StageStatus where
  status : String
  startedAt : Option Nat
  completedAt : Option Nat
  error : String
deriving DecidableEq

/-- The fields of Go `models.Deployment` the pipeline reads or writes.
The `stages` map is an association list updated in place. -/
structure Deployment where
  serverId : String
  deploymentId : String
  userId : String
  branch : String
  commitHash : String
  status : String
  stages : List (String × StageStatus)
  buildLogs : List BuildLogEntry
  imageURI : String
  createdAt : Nat
  updatedAt : Nat
deriving DecidableEq

/-- Assignment `deployment.Stages[name] = v` on the association list. -/
def setStage : List (String × StageStatus) → String → StageStatus → List (String × StageStatus)
  | [], k, v => [(k, v)]
  | (k', v') :: rest, k, v =>
    if k' = k then (k, v) :: rest else (k', v') :: setStage rest k v

/-- Environment of one `ExecuteBuild` run: the single collapsed clock
value and the results of every external call the pipeline makes. The
`DecryptToken` result is passed to `executeBuild` as a separate
parameter so the credential hyperproperty can be stated by varying it
alone. -/
structure PipelineEnv where
  now : Nat
  getDeployment : Option Deployment
  updateInitOk : Bool
  updateFinalOk : Bool
  mcpRepository : Option String
  githubConnFound : Bool
  gitCloneOk : Bool
  gitCheckoutOk : Bool
  configExists : Bool
  configContent : Option String
  yamlRootKeys : Option Nat
  dockerfileExists : Bool
  dockerfileContent : Option String
  dockerBuildOutput : String
  dockerBuildOk : Bool
  ecrRepoOk : Bool
  mcpGetForUpdateOk : Bool
  mcpUpdateOk : Bool
  ecrAccountId : String
  ecrRegion : String
  pushOk : Bool
deriving DecidableEq

/-- Abstracted environmental error texts (the Go code only wraps and
forwards these; their concrete content never influences control flow). -/
def execErrText : String := "exit status 1"

def decryptErrText : String := "cipher error"

def readErrText : String := "read error"

def yamlErrText : String := "yaml error"

def ecrErrText : String := "api error"

def mcpUpdateErrText : String := "api error"

def pushErrText : String := "api error"

def persistErrText : String := "persistence error"

/-- Mutable observable state threaded through a run: the entries of the build
logger, the snapshots handed to `deploymentRepo.Update`, and whether
the per-build working directory currently exists. -/
structure PS where
  logs : List BuildLogEntry
  writes : List Deployment
  dir : Bool
deriving DecidableEq

/-- Append one entry to the build logger (`BuildLogger.log`). -/
def PS.addLog (ps : PS) (now : Nat) (stage level msg : String) : PS :=
  { ps with logs := ps.logs ++ [⟨now, stage, level, msg⟩] }

/-- Result of the whole `ExecuteBuild` call. `panicked` models a Go
runtime panic propagating out of the function. -/
inductive ExecOutcome
  | ok
  | err (msg : String)
  | panicked (msg : String)
deriving DecidableEq

/-- Observable trace of one `ExecuteBuild` run. -/
structure ExecTrace where
  outcome : ExecOutcome
  writes : List Deployment
  logs : List BuildLogEntry
  workDirExists : Bool
  commands : List (List String)
deriving DecidableEq

/-- Go `getTempDir`: `filepath.Join(os.TempDir(), "mcp-build-<server>-<deployment>")`. -/
def getTempDir (job : BuildJob) : String :=
  "/tmp/mcp-build-" ++ job.serverID ++ "-" ++ job.deploymentID

/-- Go `injectGitHubToken`: embed the token in the URL userinfo of an
`https://` repository URL. -/
def injectGitHubToken (repoURL token : String) : String :=
  if 8 < repoURL.length ∧ repoURL.take 8 = "https://" then
    "https://x-access-token:" ++ token ++ "@" ++ repoURL.drop 8
  else repoURL

/-- Go `getImageName` computes `{serverId}:{branch}-{commitHash[:8]}`.
The slice `commitHash[:8]` panics (`slice bounds out of range`) when the
hash is shorter than 8 bytes; `none` models that panic. -/
def getImageName (job : BuildJob) : Option String :=
  if job.commitHash.length < 8 then none
  else some (job.serverID ++ ":" ++ job.branch ++ "-" ++ job.commitHash.take 8)

/-- Go `updateDeployment`: refresh `UpdatedAt`, then hand the snapshot to
`deploymentRepo.Update`. Whether that write succeeded is read by the
caller only where the Go code checks it. -/
def updateDeployment (now : Nat) (ps : PS) (d : Deployment) : PS × Deployment :=
  let d' := { d with updatedAt := now }
  ({ ps with writes := ps.writes ++ [d'] }, d')

/-- Go `markStageCompleted`: replace the entry of the stage with a fresh
record carrying only `Status: "completed"` and `CompletedAt` (the
previous `StartedAt` is not carried over), refresh the persisted log
view, and write. -/
def markStageCompleted (now : Nat) (ps : PS) (d : Deployment) (name : String) :
    PS × Deployment :=
  let d' := { d with
    stages := setStage d.stages name ⟨"completed", none, some now, ""⟩,
    buildLogs := GetLogsWithSizeLimit now ps.logs }
  updateDeployment now ps d'

/-- Go `markStageFailed`: replace the entry of the stage with a fresh record
carrying `Status: "failed"`, `CompletedAt` and the error text, set the
build-level status to `failed`, refresh the persisted log view, and
write. -/
def markStageFailed (now : Nat) (ps : PS) (d : Deployment) (name errMsg : String) :
    PS × Deployment :=
  let d' := { d with
    stages := setStage d.stages name ⟨"failed", none, some now, errMsg⟩,
    status := "failed",
    buildLogs := GetLogsWithSizeLimit now ps.logs }
  updateDeployment now ps d'

/-- Result of `cloneRepository`: the `git` invocations it made, whether
the target directory exists afterwards, and the error, if any. A failed
`git clone` removes the directory it created; a failed checkout leaves
the cloned directory in place. -/
structure CloneResult where
  cmds : List (List String)
  dirCreated : Bool
  errMsg : Option String
deriving DecidableEq

/-- Go `cloneRepository`: `git clone -b <branch> <authenticatedURL>
<targetDir>` followed by `git -C <targetDir> checkout <commit>`; both
run with `cmd.Run()`, their output discarded. -/
def cloneRepository (env : PipelineEnv) (repoURL branch commitHash targetDir accessToken : String) :
    CloneResult :=
  let authenticatedURL := injectGitHubToken repoURL accessToken
  let cloneCmd := ["git", "clone", "-b", branch, authenticatedURL, targetDir]
  if env.gitCloneOk then
    let checkoutCmd := ["git", "-C", targetDir, "checkout", commitHash]
    if env.gitCheckoutOk then
      { cmds := [cloneCmd, checkoutCmd], dirCreated := true, errMsg := none }
    else
      { cmds := [cloneCmd, checkoutCmd], dirCreated := true,
        errMsg := some ("git checkout failed: " ++ execErrText) }
  else
    { cmds := [cloneCmd], dirCreated := false,
      errMsg := some ("git clone failed: " ++ execErrText) }

/-- Output of the clone stage. -/
structure StageCloneOut where
  ps : PS
  cmds : List (List String)
  errMsg : Option String
deriving DecidableEq

/-- Go `stageClone`: resolve the MCP record and the GitHub connection,
decrypt the stored token (its result is the `decryptedToken` parameter),
and clone. Only the subprocess argv ever receives the plaintext token. -/
def stageClone (env : PipelineEnv) (decryptedToken : Option String) (job : BuildJob)
    (ps : PS) : StageCloneOut :=
  let ps := ps.addLog env.now "clone" "info" "Starting repository clone"
  match env.mcpRepository with
  | none =>
    { ps := ps.addLog env.now "clone" "error" "MCP server not found",
      cmds := [], errMsg := some "mcp server not found" }
  | some repoURL =>
    if env.githubConnFound then
      match decryptedToken with
      | none =>
        { ps := ps.addLog env.now "clone" "error"
            ("Failed to decrypt GitHub token: " ++ decryptErrText),
          cmds := [], errMsg := some ("token decryption failed: " ++ decryptErrText) }
      | some accessToken =>
        let tempDir := getTempDir job
        let c := cloneRepository env repoURL job.branch job.commitHash tempDir accessToken
        match c.errMsg with
        | some e =>
          { ps := { ps.addLog env.now "clone" "error" ("Repository clone failed: " ++ e)
                      with dir := c.dirCreated },
            cmds := c.cmds, errMsg := some e }
        | none =>
          { ps := { ps.addLog env.now "clone" "info"
                      ("Repository cloned successfully to " ++ tempDir)
                      with dir := c.dirCreated },
            cmds := c.cmds, errMsg := none }
    else
      { ps := ps.addLog env.now "clone" "error" "GitHub connection not found",
        cmds := [], errMsg := some "github connection not found" }

/-- Go `validateConfig`: stat, read and YAML-parse `mhive.config.yaml`,
logging each step. -/
def validateConfig (env : PipelineEnv) (ps : PS) (configPath : String) :
    PS × Option String :=
  if env.configExists then
    let ps := ps.addLog env.now "validate_config" "info" "mhive.config.yaml file exists"
    match env.configContent with
    | none =>
      (ps.addLog env.now "validate_config" "error"
        ("Failed to read mhive.config.yaml: " ++ readErrText),
       some ("failed to read mhive.config.yaml: " ++ readErrText))
    | some data =>
      let ps := ps.addLog env.now "validate_config" "info"
        ("Successfully read mhive.config.yaml (" ++ toString data.length ++ " bytes)")
      match env.yamlRootKeys with
      | none =>
        (ps.addLog env.now "validate_config" "error" ("Invalid YAML syntax: " ++ yamlErrText),
         some ("invalid YAML syntax: " ++ yamlErrText))
      | some n =>
        let ps := ps.addLog env.now "validate_config" "info"
          ("YAML syntax is valid. Configuration contains " ++ toString n ++ " root keys")
        (ps.addLog env.now "validate_config" "info"
          "Configuration validation completed successfully", none)
  else
    (ps.addLog env.now "validate_config" "error"
      ("mhive.config.yaml not found at " ++ configPath),
     some "mhive.config.yaml not found")

/-- Go `stageValidateConfig`. -/
def stageValidateConfig (env : PipelineEnv) (ps : PS) (tempDir : String) :
    PS × Option String :=
  let ps := ps.addLog env.now "validate_config" "info" "Starting mhive.config.yaml validation"
  let r := validateConfig env ps (tempDir ++ "/mhive.config.yaml")
  match r.2 with
  | some e =>
    (r.1.addLog env.now "validate_config" "error" ("Config validation failed: " ++ e), some e)
  | none =>
    (r.1.addLog env.now "validate_config" "info" "mhive.config.yaml is valid", none)

/-- Go `stageValidateDocker`: stat, read and non-emptiness check of the
`Dockerfile`. -/
def stageValidateDocker (env : PipelineEnv) (ps : PS) (tempDir : String) :
    PS × Option String :=
  let ps := ps.addLog env.now "validate_docker" "info" "Starting Dockerfile validation"
  let dockerfilePath := tempDir ++ "/Dockerfile"
  if env.dockerfileExists then
    let ps := ps.addLog env.now "validate_docker" "info"
      ("Dockerfile file exists at " ++ dockerfilePath)
    match env.dockerfileContent with
    | none =>
      (ps.addLog env.now "validate_docker" "error" ("Failed to read Dockerfile: " ++ readErrText),
       some ("failed to read dockerfile: " ++ readErrText))
    | some data =>
      let ps := ps.addLog env.now "validate_docker" "info"
        ("Dockerfile read successfully (" ++ toString data.length ++ " bytes)")
      if data.length = 0 then
        (ps.addLog env.now "validate_docker" "error" "Dockerfile is empty",
         some "dockerfile is empty")
      else
        (ps.addLog env.now "validate_docker" "info"
          "Dockerfile syntax validation completed successfully", none)
  else
    (ps.addLog env.now "validate_docker" "error"
      ("Dockerfile not found at " ++ dockerfilePath),
     some "dockerfile not found")

/-- Go `ECRService.GetRepositoryURI`:
`{accountID}.dkr.ecr.{region}.amazonaws.com/{repoName}`. -/
def GetRepositoryURI (env : PipelineEnv) (repoName : String) : String :=
  env.ecrAccountId ++ ".dkr.ecr." ++ env.ecrRegion ++ ".amazonaws.com/" ++ repoName

/-- Go `stageBuildImage` together with `buildDockerImage`: stat the
`Dockerfile`, run `docker build -t <imageName> <tempDir>`, log the
combined subprocess output at `info`, and report the build result.
Returns the updated state, the `docker` invocations, and the error, if
any. -/
def stageBuildImage (env : PipelineEnv) (ps : PS) (tempDir imageName : String) :
    PS × List (List String) × Option String :=
  let ps := ps.addLog env.now "build_image" "info"
    ("Starting Docker image build for " ++ imageName)
  if env.dockerfileExists then
    let buildCmd := ["docker", "build", "-t", imageName, tempDir]
    let ps := ps.addLog env.now "build_image" "info" env.dockerBuildOutput
    if env.dockerBuildOk then
      (ps.addLog env.now "build_image" "info"
        ("Docker image built successfully: " ++ imageName), [buildCmd], none)
    else
      let e := "docker build failed: " ++ execErrText
      (ps.addLog env.now "build_image" "error" ("Docker build failed: " ++ e), [buildCmd], some e)
  else
    let e := "dockerfile not found in repository"
    (ps.addLog env.now "build_image" "error" ("Docker build failed: " ++ e), [], some e)

/-- Go `stageCreateECR` with `ECRService.GetOrCreateRepository` (which
names the repository `mcp-{serverID}` and, when creating it, tags it
`managed-by=buildserver`): on success the stage yields `(repoName,
repoURI)`. -/
def stageCreateECR (env : PipelineEnv) (ps : PS) (job : BuildJob) :
    PS × Except String (String × String) :=
  let ps := ps.addLog env.now "create_ecr" "info"
    ("Creating/verifying ECR repository for server " ++ job.serverID)
  if env.ecrRepoOk then
    let repoName := "mcp-" ++ job.serverID
    let repoURI := GetRepositoryURI env repoName
    (ps.addLog env.now "create_ecr" "info" ("ECR repository ready: " ++ repoURI),
     Except.ok (repoName, repoURI))
  else
    let e := "failed to create ECR repository: " ++ ecrErrText
    (ps.addLog env.now "create_ecr" "error" ("Failed to create ECR repository: " ++ e),
     Except.error e)

/-- Go `updateMCPWithECRRepo`, called by `ExecuteBuild` between stages 5
and 6: re-fetch the MCP record and write the repository name and URI
into it; a failure on either step is only logged by the caller (at
`error` level, stage `create_ecr`) and does not fail the build. -/
def updateMCPWithECRRepo (env : PipelineEnv) (ps : PS) : PS :=
  if env.mcpGetForUpdateOk && env.mcpUpdateOk then ps
  else
    ps.addLog env.now "create_ecr" "error"
      ("Failed to update MCP with ECR repo info: " ++ mcpUpdateErrText)

/-- Go `stagePushImage` with `ECRService.PushImage`: tags
`{branch}-{commitHash[:8]}` and `latest` are applied to the local image
and pushed (the `docker login` to ECR that precedes them is abstracted
into the push result). The slice `commitHash[:8]` here cannot panic:
execution only reaches stage 6 after `getImageName` has already sliced
the same hash. On success the image URI is `{repoURI}:{firstTag}`. -/
def stagePushImage (env : PipelineEnv) (ps : PS) (job : BuildJob)
    (imageName repoName : String) : PS × List (List String) × Except String String :=
  let ps := ps.addLog env.now "push_image" "info"
    ("Pushing Docker image to ECR: " ++ repoName)
  let tagA := job.branch ++ "-" ++ job.commitHash.take 8
  let repoURI := GetRepositoryURI env repoName
  if env.pushOk then
    let fullA := repoURI ++ ":" ++ tagA
    let fullLatest := repoURI ++ ":latest"
    let imageURI := fullA
    (ps.addLog env.now "push_image" "info"
      ("Image pushed successfully to ECR: " ++ imageURI),
     [["docker", "tag", imageName, fullA], ["docker", "tag", imageName, fullLatest],
      ["docker", "push", fullA], ["docker", "push", fullLatest]],
     Except.ok imageURI)
  else
    let e := "ECR login failed: " ++ pushErrText
    (ps.addLog env.now "push_image" "error" ("Failed to push image to ECR: " ++ e),
     [], Except.error e)

/-- Stages 2–6 and finalization of `ExecuteBuild`, entered after the
clone stage has been marked completed. Deferred `os.RemoveAll(tempDir)`
calls are registered inside each failure branch of stages 2–4 and
unconditionally once stage 4 completes, so every exit from this portion
removes the working directory — except the panic in `getImageName`,
which unwinds before any deferred removal has been registered. -/
def executeFromValidateConfig (env : PipelineEnv) (job : BuildJob) (ps : PS)
    (d : Deployment) : ExecTrace :=
  let tempDir := getTempDir job
  let r2 := stageValidateConfig env ps tempDir
  match r2.2 with
  | some e =>
    let f := markStageFailed env.now r2.1 d "validate_config" e
    { outcome := ExecOutcome.err e, writes := f.1.writes, logs := f.1.logs,
      workDirExists := false, commands := [] }
  | none =>
  let c2 := markStageCompleted env.now r2.1 d "validate_config"
  let r3 := stageValidateDocker env c2.1 tempDir
  match r3.2 with
  | some e =>
    let f := markStageFailed env.now r3.1 c2.2 "validate_docker" e
    { outcome := ExecOutcome.err e, writes := f.1.writes, logs := f.1.logs,
      workDirExists := false, commands := [] }
  | none =>
  let c3 := markStageCompleted env.now r3.1 c2.2 "validate_docker"
  match getImageName job with
  | none =>
    { outcome := ExecOutcome.panicked "runtime error: slice bounds out of range",
      writes := c3.1.writes, logs := c3.1.logs,
      workDirExists := c3.1.dir, commands := [] }
  | some imageName =>
  let r4 := stageBuildImage env c3.1 tempDir imageName
  match r4.2.2 with
  | some e =>
    let f := markStageFailed env.now r4.1 c3.2 "build_image" e
    { outcome := ExecOutcome.err e, writes := f.1.writes, logs := f.1.logs,
      workDirExists := false, commands := r4.2.1 }
  | none =>
  let c4 := markStageCompleted env.now r4.1 c3.2 "build_image"
  let r5 := stageCreateECR env c4.1 job
  match r5.2 with
  | Except.error e =>
    let f := markStageFailed env.now r5.1 c4.2 "create_ecr" e
    { outcome := ExecOutcome.err e, writes := f.1.writes, logs := f.1.logs,
      workDirExists := false, commands := r4.2.1 }
  | Except.ok rn =>
  let c5 := markStageCompleted env.now r5.1 c4.2 "create_ecr"
  let psM := updateMCPWithECRRepo env c5.1
  let r6 := stagePushImage env psM job imageName rn.1
  match r6.2.2 with
  | Except.error e =>
    let f := markStageFailed env.now r6.1 c5.2 "push_image" e
    { outcome := ExecOutcome.err e, writes := f.1.writes, logs := f.1.logs,
      workDirExists := false, commands := r4.2.1 ++ r6.2.1 }
  | Except.ok imageURI =>
  let c6 := markStageCompleted env.now r6.1 c5.2 "push_image"
  let dFinal := { c6.2 with
    status := "completed"
    imageURI := imageURI
    buildLogs := GetLogsWithSizeLimit env.now c6.1.logs }
  let w := updateDeployment env.now c6.1 dFinal
  if env.updateFinalOk then
    let psZ := w.1.addLog env.now "finalize" "info" "Build pipeline completed successfully"
    { outcome := ExecOutcome.ok, writes := psZ.writes, logs := psZ.logs,
      workDirExists := false, commands := r4.2.1 ++ r6.2.1 }
  else
    let psZ := w.1.addLog env.now "finalize" "error"
      ("Failed to update deployment: " ++ persistErrText)
    { outcome := ExecOutcome.err persistErrText, writes := psZ.writes, logs := psZ.logs,
      workDirExists := false, commands := r4.2.1 ++ r6.2.1 }

/-- Continuation of `ExecuteBuild` from the point where `stageClone` has
returned: a clone failure is marked and returned with NO directory
removal (no deferred `os.RemoveAll` is registered on that path); a clone
success is marked completed and execution proceeds to stage 2. -/
def afterClone (env : PipelineEnv) (job : BuildJob) (ps : PS) (d : Deployment)
    (cloneErr : Option String) : ExecTrace :=
  match cloneErr with
  | some e =>
    let f := markStageFailed env.now ps d "clone" e
    { outcome := ExecOutcome.err e, writes := f.1.writes, logs := f.1.logs,
      workDirExists := f.1.dir, commands := [] }
  | none =>
    let c1 := markStageCompleted env.now ps d "clone"
    executeFromValidateConfig env job c1.1 c1.2

/-- The entry phase of `ExecuteBuild`: clear the logger, build the six
pending stage records (only `clone` is given a `StartedAt`), fetch the
deployment, normalize and write it, and check that first write; a
failure short-circuits with the finished trace. -/
def executePre (env : PipelineEnv) (_job : BuildJob) : Except ExecTrace (PS × Deployment) :=
  let ps0 : PS := { logs := [], writes := [], dir := false }
  let initStages : List (String × StageStatus) :=
    [("clone", ⟨"pending", some env.now, none, ""⟩),
     ("validate_config", ⟨"pending", none, none, ""⟩),
     ("validate_docker", ⟨"pending", none, none, ""⟩),
     ("build_image", ⟨"pending", none, none, ""⟩),
     ("create_ecr", ⟨"pending", none, none, ""⟩),
     ("push_image", ⟨"pending", none, none, ""⟩)]
  match env.getDeployment with
  | none =>
    let ps := ps0.addLog env.now "init" "error" "Failed to fetch deployment from database"
    Except.error
      { outcome := ExecOutcome.err "deployment not found", writes := ps.writes,
        logs := ps.logs, workDirExists := ps.dir, commands := [] }
  | some d0 =>
    let d1 := { d0 with stages := initStages, status := "in_progress", buildLogs := ps0.logs }
    let w := updateDeployment env.now ps0 d1
    if env.updateInitOk then
      Except.ok w
    else
      let ps := w.1.addLog env.now "init" "error"
        ("Failed to update deployment: " ++ persistErrText)
      Except.error
        { outcome := ExecOutcome.err persistErrText, writes := ps.writes,
          logs := ps.logs, workDirExists := ps.dir, commands := [] }

/-- Go `PipelineService.ExecuteBuild`: the entry phase, then the clone
stage and — via `afterClone` — the remaining stages in order. -/
def executeBuild (env : PipelineEnv) (decryptedToken : Option String) (job : BuildJob) :
    ExecTrace :=
  match executePre env job with
  | Except.error t => t
  | Except.ok w =>
    let c := stageClone env decryptedToken job w.1
    let r := afterClone env job c.ps w.2 c.errMsg
    { r with commands := c.cmds ++ r.commands }

/-- The observable results of a run that the credential must not leak
into: the outcome, every persisted deployment snapshot (including its
build logs), the final logger contents, and the working-directory state.
Only the subprocess argv (`commands`) is excluded: that is exactly where
the authenticated URL is passed. -/
def ExecTrace.observables (t : ExecTrace) :
    ExecOutcome × List Deployment × List BuildLogEntry × Bool :=
  (t.outcome, t.writes, t.logs, t.workDirExists)

/-- A deployment record as fetched at the start of a run. -/
def deployA : Deployment :=
  { serverId := "s1", deploymentId := "d1", userId := "u1", branch := "main",
    commitHash := "a1b2c3d4e5f6a7b8", status := "queued", stages := [],
    buildLogs := [], imageURI := "", createdAt := 0, updatedAt := 0 }

/-- An environment in which every external call succeeds. -/
def envAllOk : PipelineEnv :=
  { now := 0, getDeployment := some deployA, updateInitOk := true, updateFinalOk := true,
    mcpRepository := some "https://github.com/u1/repo.git", githubConnFound := true,
    gitCloneOk := true, gitCheckoutOk := true, configExists := true,
    configContent := some "name: demo", yamlRootKeys := some 1,
    dockerfileExists := true, dockerfileContent := some "FROM scratch",
    dockerBuildOutput := "build output", dockerBuildOk := true, ecrRepoOk := true,
    mcpGetForUpdateOk := true, mcpUpdateOk := true,
    ecrAccountId := "123456789012", ecrRegion := "us-east-1", pushOk := true }

/-- The same job with a 7-character commit hash. -/
def jobShort : BuildJob := { jobA with commitHash := "a1b2c3d" }

/-! ## Build initiation handler (`BuildHandler.InitiateBuild`)

The repository contains two variants of this handler. The one in
`internal/handlers/build.go` validates the request, constructs the
`BuildJob`, and then — under the comment `Execute build synchronously
for testing purposes` — calls `pipelineService.ExecuteBuild` in the
request goroutine, responding 202 only after the build finished (500 on
error); `jobQueue.Enqueue` is never called. The other variant validates
identically but calls `jobQueue.Enqueue(job)` (discarding its error)
and responds 202 immediately. -/

/-- Inputs to one `InitiateBuild` request: the authenticated user from
the middleware context, the URL parameters, and the results of the
validation lookups; `pipelineError` is the result of the synchronous
`ExecuteBuild` call when one is made. -/
structure BuildRequestEnv where
  ctxUserId : Option String
  serverId : String
  deploymentId : String
  githubConnFound : Bool
  mcpOwner : Option String
  deployment : Option Deployment
  pipelineError : Option String
deriving DecidableEq

/-- Observable result of one `InitiateBuild` request: the HTTP status
responded, the jobs submitted through `JobQueue.Enqueue`, and the jobs
executed by `ExecuteBuild` inside the request itself. -/
structure InitiateResult where
  status : Nat
  enqueued : List BuildJob
  ranInRequest : List BuildJob
deriving DecidableEq

/-- The shared validation prefix of both handler variants: missing user
401; missing path parameter 400; no GitHub connection 403; unknown MCP
404; foreign MCP 403; unknown deployment 404; foreign deployment 403.
On success it yields the authenticated user and the deployment. -/
def validateInitiate (env : BuildRequestEnv) : Except Nat (String × Deployment) :=
  match env.ctxUserId with
  | none => Except.error 401
  | some uid =>
    if env.serverId = "" then Except.error 400
    else if env.deploymentId = "" then Except.error 400
    else if env.githubConnFound then
      match env.mcpOwner with
      | none => Except.error 404
      | some owner =>
        if owner = uid then
          match env.deployment with
          | none => Except.error 404
          | some dep =>
            if dep.userId = uid then Except.ok (uid, dep)
            else Except.error 403
        else Except.error 403
    else Except.error 403

/-- The `InitiateBuild` of `internal/handlers/build.go`: after
validation the `BuildJob` is built and `ExecuteBuild` is invoked
synchronously in the request path; nothing is enqueued. -/
def InitiateBuildSync (env : BuildRequestEnv) : InitiateResult :=
  match validateInitiate env with
  | Except.error s => { status := s, enqueued := [], ranInRequest := [] }
  | Except.ok u =>
    let job : BuildJob :=
      { deploymentID := env.deploymentId, serverID := env.serverId, userID := u.1,
        branch := u.2.branch, commitHash := u.2.commitHash }
    match env.pipelineError with
    | none => { status := 202, enqueued := [], ranInRequest := [job] }
    | some _ => { status := 500, enqueued := [], ranInRequest := [job] }

/-- The asynchronous `InitiateBuild` variant: after validation the job
is handed to `jobQueue.Enqueue` (its error discarded) and the handler
responds 202 at once; the pipeline runs only when a pool worker
dequeues the job. -/
def InitiateBuildAsync (env : BuildRequestEnv) : InitiateResult :=
  match validateInitiate env with
  | Except.error s => { status := s, enqueued := [], ranInRequest := [] }
  | Except.ok u =>
    let job : BuildJob :=
      { deploymentID := env.deploymentId, serverID := env.serverId, userID := u.1,
        branch := u.2.branch, commitHash := u.2.commitHash }
    { status := 202, enqueued := [job], ranInRequest := [] }

/-- A fully authorized build-initiation request. -/
def requestOk : BuildRequestEnv :=
  { ctxUserId := some "u1", serverId := "s1", deploymentId := "d1",
    githubConnFound := true, mcpOwner := some "u1", deployment := some deployA,
    pipelineError := none }

/-! ## Verified properties -/

theorem getLogsWithSizeLimitAux_spec (now : Nat) :
    ∀ (logs : List BuildLogEntry) (total : Nat), total ≤ LogSizeLimit →
      ∃ k, k ≤ logs.length ∧
        getLogsWithSizeLimitAux now total logs =
          logs.take k ++ (if k = logs.length then [] else [truncationNotice now]) ∧
        total + totalEstimatedSize (logs.take k) ≤ LogSizeLimit := by
  intro logs
  induction logs with
  | nil =>
    intro total htot
    exact ⟨0, by simp [getLogsWithSizeLimitAux, totalEstimatedSize, htot]⟩
  | cons e rest ih =>
    intro total htot
    by_cases hover : LogSizeLimit < total + entrySize e
    · refine ⟨0, by simp, ?_, by simpa [totalEstimatedSize] using htot⟩
      simp [getLogsWithSizeLimitAux, hover]
    · have hle : total + entrySize e ≤ LogSizeLimit := Nat.le_of_not_lt hover
      obtain ⟨k, hk, heq, hsum⟩ := ih (total + entrySize e) hle
      refine ⟨k + 1, by simpa using Nat.succ_le_succ hk, ?_, ?_⟩
      · simp only [getLogsWithSizeLimitAux, if_neg hover, heq, List.take_succ_cons,
          List.length_cons, List.cons_append]
        by_cases hkl : k = rest.length
        · simp [hkl]
        · have : ¬ (k + 1 = rest.length + 1) := fun h => hkl (Nat.succ_injective h)
          simp [hkl, this]
      · simpa [totalEstimatedSize, Nat.add_assoc] using hsum

theorem entrySize_padEntry : entrySize padEntry = 135 := rfl

theorem totalEstimatedSize_cons (e : BuildLogEntry) (l : List BuildLogEntry) :
    totalEstimatedSize (e :: l) = entrySize e + totalEstimatedSize l := by
  simp [totalEstimatedSize]

theorem aux_replicate_overflow (now : Nat) :
    ∀ (n total : Nat), total ≤ LogSizeLimit → LogSizeLimit < total + 135 * n →
      LogSizeLimit + 53 <
        total + totalEstimatedSize (getLogsWithSizeLimitAux now total (List.replicate n padEntry)) := by
  intro n
  induction n with
  | zero =>
    intro total htot hov
    exact absurd (lt_of_lt_of_le (by simpa using hov) htot) (lt_irrefl _)
  | succ m ih =>
    intro total htot hov
    rw [List.replicate_succ]
    by_cases hover : LogSizeLimit < total + entrySize padEntry
    · rw [getLogsWithSizeLimitAux, if_pos hover]
      have : LogSizeLimit < total + 135 := by simpa [entrySize_padEntry] using hover
      have hlen : ("Log output exceeded size limit. Older logs truncated.").length = 53 := rfl
      have hsz : totalEstimatedSize [truncationNotice now] = 188 := by
        simp [totalEstimatedSize, entrySize, truncationNotice, hlen]
      omega
    · rw [getLogsWithSizeLimitAux, if_neg hover, totalEstimatedSize_cons, entrySize_padEntry]
      have hle : total + 135 ≤ LogSizeLimit := by
        simpa [entrySize_padEntry] using Nat.le_of_not_lt hover
      have hov' : LogSizeLimit < (total + 135) + 135 * m := by
        have : 135 * (m + 1) = 135 * m + 135 := by ring
        omega
      have := ih (total + 135) hle hov'
      omega

/-- C4 (amended): the bounded (persisted) view is an earliest-first prefix
`logs.take k` of the appended entries — later over-budget entries are
dropped — followed by exactly one truncation notice as the last element
iff at least one entry was dropped (`k < logs.length`); the estimated
size of the kept original entries is at most `LOG_BUDGET`, and the total
including the truncation notice is at most `LOG_BUDGET` plus the own
estimated size of the notice (188 bytes); the total including the notice is NOT in
general within `LOG_BUDGET` itself. -/
theorem c4_bounded_view_amended (now : Nat) (logs : List BuildLogEntry) :
    ∃ k, k ≤ logs.length ∧
      GetLogsWithSizeLimit now logs =
        logs.take k ++ (if k = logs.length then [] else [truncationNotice now]) ∧
      totalEstimatedSize (logs.take k) ≤ LogSizeLimit ∧
      totalEstimatedSize (GetLogsWithSizeLimit now logs) ≤
        LogSizeLimit + entrySize (truncationNotice now) := by
  obtain ⟨k, hk, heq, hsum⟩ :=
    getLogsWithSizeLimitAux_spec now logs 0 (Nat.zero_le _)
  refine ⟨k, hk, heq, by simpa using hsum, ?_⟩
  show totalEstimatedSize (getLogsWithSizeLimitAux now 0 logs) ≤ _
  rw [heq]
  have htake : totalEstimatedSize (logs.take k) ≤ LogSizeLimit := by simpa using hsum
  by_cases hkl : k = logs.length
  · simp only [hkl, if_pos rfl, List.append_nil]
    exact le_trans (by simpa [hkl] using htake) (Nat.le_add_right _ _)
  · simp only [if_neg hkl]
    have : totalEstimatedSize (logs.take k ++ [truncationNotice now]) =
        totalEstimatedSize (logs.take k) + entrySize (truncationNotice now) := by
      simp [totalEstimatedSize]
    omega

/-- C4 (counterexample): 3035 appended entries with empty messages cost
135 bytes each; the first 3034 (409 590 bytes) fit the 409 600-byte
budget, the 3035th overflows it, and the truncation notice (188 bytes)
pushes the own estimated total of the persisted view to 409 778 bytes — above
`LOG_BUDGET`, refuting the claimed bound on the returned view. -/
theorem c4_bounded_total_exceeds_budget :
    LogSizeLimit <
      totalEstimatedSize (GetLogsWithSizeLimit 0 (List.replicate 3035 padEntry)) := by
  have h := aux_replicate_overflow 0 3035 0 (Nat.zero_le _) (by norm_num [LogSizeLimit])
  have h2 : LogSizeLimit + 53 <
      totalEstimatedSize (getLogsWithSizeLimitAux 0 0 (List.replicate 3035 padEntry)) := by
    omega
  exact lt_of_le_of_lt (Nat.le_add_right _ 53) h2

/-- C5: evaluating `Enqueue` on the closed queue. `Close` closes the
`jobs` channel itself, so the send case of the select stays ready and panics
if chosen: the possible outcomes after `Close` are a `send on closed
channel` panic or `ErrQueueClosed` — `Enqueue` does not block and cannot
succeed, but it can panic, contradicting the claim (and the doc comment
on `ErrQueueClosed`). The same race hits an enqueue blocked on a full
queue when `Close` runs. -/
theorem c5_enqueue_after_close_may_panic :
    JobQueue.enqueueOutcomes (JobQueue.Close (NewJobQueue 100)) jobA =
      [EnqueueOutcome.panicSendOnClosed, EnqueueOutcome.queueClosedErr] := by
  decide

theorem poolStep_invariant {s t : PoolState} (h : PoolStep s t)
    (hstop : s.stopClosed = false) :
    t.stopClosed = false ∧ t.jobsClosed = s.jobsClosed ∧
      t.delivered ++ t.buffer = s.delivered ++ s.buffer ∧
      (t.active = 0 → t.buffer = []) ∧
      (s.delivered ++ s.buffer ≠ t.delivered → s.active ≠ 0) := by
  cases h with
  | deliver j b del jc sc a =>
    exact ⟨hstop, rfl, by simp, fun h => absurd h (by simp), fun _ => by simp⟩
  | exitDrained del sc a =>
    exact ⟨hstop, rfl, by simp, fun _ => rfl, fun _ => by simp⟩
  | exitStop b del jc a => exact absurd hstop (by simp_all)

theorem poolSteps_invariant {s t : PoolState} (h : PoolSteps s t)
    (hstop : s.stopClosed = false) :
    t.stopClosed = false ∧ t.jobsClosed = s.jobsClosed ∧
      t.delivered ++ t.buffer = s.delivered ++ s.buffer ∧
      ((s.active = 0 → s.buffer = []) → t.active = 0 → t.buffer = []) := by
  induction h with
  | refl => exact ⟨hstop, rfl, rfl, fun h0 => h0⟩
  | tail _hsteps hstep ih =>
    obtain ⟨ih1, ih2, ih3, ih4⟩ := ih
    obtain ⟨g1, g2, g3, g4, _⟩ := poolStep_invariant hstep ih1
    exact ⟨g1, g2.trans ih2, g3.trans ih3, fun _ => g4⟩

/-- C6 (amended): as long as `WorkerPool.Stop` is never invoked
(`stopClosed = false`), for any interleaving of workers on a closed
queue that ends with every worker exited (`active = 0`), the buffer has
been fully drained and the delivered sequence extends the previous one
by exactly the buffered jobs, in FIFO order, each delivered to exactly
one worker; a worker observes closure (`exitDrained`) only when no
buffered job remains. If `Stop` IS invoked, a worker may exit via the
`done` channel of the pool with jobs still buffered, and an accepted job is
then never delivered (see the counterexample). -/
theorem c6_drain_delivers_fifo (init final : PoolState)
    (hstop : init.stopClosed = false) (hactive : 0 < init.active)
    (h : PoolSteps init final) (hdone : final.active = 0) :
    final.buffer = [] ∧ final.delivered = init.delivered ++ init.buffer := by
  obtain ⟨_, _, h3, h4⟩ := poolSteps_invariant h hstop
  have hbuf : final.buffer = [] := h4 (fun h0 => absurd h0 (by omega)) hdone
  refine ⟨hbuf, ?_⟩
  have := h3
  rw [hbuf, List.append_nil] at this
  exact this

/-- Witness for `c6_drain_delivers_fifo`: one worker, one buffered job on
a closed queue, no stop signal; the worker delivers the job and then
exits on the drained channel. -/
theorem c6_drain_delivers_fifo_witness :
    (⟨[], true, false, 0, [jobA]⟩ : PoolState).buffer = [] ∧
      (⟨[], true, false, 0, [jobA]⟩ : PoolState).delivered =
        (⟨[jobA], true, false, 1, []⟩ : PoolState).delivered ++
          (⟨[jobA], true, false, 1, []⟩ : PoolState).buffer := by
  refine c6_drain_delivers_fifo ⟨[jobA], true, false, 1, []⟩ ⟨[], true, false, 0, [jobA]⟩
    rfl (by decide) ?_ rfl
  exact Relation.ReflTransGen.head (PoolStep.deliver jobA [] [] true false 0)
    (Relation.ReflTransGen.head (PoolStep.exitDrained [jobA] false 0)
      Relation.ReflTransGen.refl)

/-- C6 (counterexample): the queue is closed with `jobA` still buffered
and `WorkerPool.Stop` has closed the `done` channel of the pool; the single
remaining worker takes the `<-wp.done` select case and returns. The
resulting state is terminal — no step applies with `active = 0` — and
`jobA`, though accepted by `Enqueue` before `Close`, has been delivered
to no worker, refuting the claimed eventual delivery. -/
theorem c6_stop_abandons_buffered_job :
    PoolSteps ⟨[jobA], true, true, 1, []⟩ ⟨[jobA], true, true, 0, []⟩ ∧
      (∀ t, ¬ PoolStep ⟨[jobA], true, true, 0, []⟩ t) ∧
      (⟨[jobA], true, true, 0, []⟩ : PoolState).delivered = [] := by
  refine ⟨Relation.ReflTransGen.single (PoolStep.exitStop [jobA] [] true 0), ?_, rfl⟩
  intro t hstep
  cases hstep

/-- C7 (amended): a handler returning an error never terminates the
worker — if no handler invocation panics, the worker processes every
delivered job, in order, and is still alive afterwards (the pool fails
only by queue closure); an unrecovered handler panic, however, does
terminate the worker (see the counterexample). -/
theorem c7_handler_error_worker_survives (handler : BuildJob → HandlerResult)
    (jobs : List BuildJob)
    (hnp : ∀ j ∈ jobs, ∀ m, handler j ≠ HandlerResult.panicked m) :
    workerLoop handler jobs = { processed := jobs, alive := true } := by
  induction jobs with
  | nil => rfl
  | cons j rest ih =>
    have hj := hnp j (by simp)
    have hrest : ∀ j' ∈ rest, ∀ m, handler j' ≠ HandlerResult.panicked m :=
      fun j' hj' => hnp j' (by simp [hj'])
    rw [workerLoop]
    cases hh : handler j with
    | panicked m => exact absurd hh (hj m)
    | success => simp [ih hrest]
    | failure m => simp [ih hrest]

/-- Witness for `c7_handler_error_worker_survives`: a handler that
returns an `AdapterError`-style failure on every job; the worker
processes both delivered jobs and stays alive. -/
theorem c7_handler_error_worker_survives_witness :
    workerLoop (fun _ => HandlerResult.failure "docker build failed") [jobA, jobA] =
      { processed := [jobA, jobA], alive := true } :=
  c7_handler_error_worker_survives _ [jobA, jobA] (by intro j _ m h; cases h)

/-- C7 (counterexample): a handler that panics on its first job. The
worker has no `recover`, so the panic terminates it: the second
delivered job is never processed and the worker is no longer alive,
refuting the claim that a recoverable panic does not terminate the
worker. -/
theorem c7_handler_panic_kills_worker :
    workerLoop (fun _ => HandlerResult.panicked "runtime error") [jobA, jobA] =
      { processed := [jobA], alive := false } := by
  decide

/-- C1: evaluating `ExecuteBuild` on a job whose commit hash has 7
characters, in an environment where every external call succeeds. No
validation rejects the short hash: the clone, validate_config and
validate_docker stages all run and are marked completed (the final
snapshot shows them `completed`), the working directory has been created
and still exists, and the run ends in the `slice bounds out of range`
panic of the slice `commitHash[:8]` in `getImageName` — not in a `ValidationError`
before stage 1 as claimed. -/
theorem c1_short_commit_panics_after_stage3 :
    (executeBuild envAllOk (some "token") jobShort).outcome =
      ExecOutcome.panicked "runtime error: slice bounds out of range" ∧
    (executeBuild envAllOk (some "token") jobShort).workDirExists = true ∧
    (executeBuild envAllOk (some "token") jobShort).commands ≠ [] ∧
    (executeBuild envAllOk (some "token") jobShort).writes.length = 4 ∧
    ((executeBuild envAllOk (some "token") jobShort).writes.getLast?.map
        Deployment.stages).bind (List.lookup "validate_docker") =
      some ⟨"completed", none, some 0, ""⟩ := by
  decide

/-- C2: evaluating a fully successful `ExecuteBuild`. In every snapshot
ever handed to the deployment store — and in the in-memory record they
mirror — no stage is ever `in_progress`: the initial snapshot holds all
six stages `pending` (only `clone` with a `StartedAt`), and each later
snapshot flips one stage straight from `pending` to `completed`.
Moreover the final `clone` record has `startedAt = none`: the
`StartedAt` recorded at initialization is not retained by
`markStageCompleted`, which builds a fresh record with only `Status`
and `CompletedAt`. -/
theorem c2_stage_status_skips_in_progress :
    (∀ d ∈ (executeBuild envAllOk (some "token") jobA).writes,
      ∀ s ∈ d.stages, s.2.status ≠ "in_progress") ∧
    ((executeBuild envAllOk (some "token") jobA).writes.head?.map
        Deployment.stages).bind (List.lookup "clone") =
      some ⟨"pending", some 0, none, ""⟩ ∧
    ((executeBuild envAllOk (some "token") jobA).writes.getLast?.map
        Deployment.stages).bind (List.lookup "clone") =
      some ⟨"completed", none, some 0, ""⟩ ∧
    (executeBuild envAllOk (some "token") jobA).outcome = ExecOutcome.ok := by
  decide

/-- C3: evaluating `ExecuteBuild` where `git clone` succeeds (creating
the working directory) and `git checkout` fails. The clone stage fails,
`ExecuteBuild` returns the checkout error — and the working directory
still exists when it returns: the clone-failure path has no deferred
`os.RemoveAll` (the first one is registered only in the
validate_config failure branch). The same holds for the `getImageName`
panic path (see `c1_short_commit_panics_after_stage3`). -/
theorem c3_workdir_survives_clone_failure :
    (executeBuild { envAllOk with gitCheckoutOk := false } (some "token") jobA).outcome =
      ExecOutcome.err ("git checkout failed: " ++ execErrText) ∧
    (executeBuild { envAllOk with gitCheckoutOk := false } (some "token") jobA).workDirExists
      = true := by
  decide

/-- C8: evaluating both `InitiateBuild` variants on a fully authorized
request. The variant in `internal/handlers/build.go` responds 202 with
NOTHING enqueued and the pipeline executed inside the request path,
contradicting the claim (and its own `async execution` comments); the
asynchronous variant enqueues the job and runs nothing inline. -/
theorem c8_initiate_build_runs_pipeline_synchronously :
    InitiateBuildSync requestOk =
      { status := 202, enqueued := [], ranInRequest := [jobA] } ∧
    InitiateBuildAsync requestOk =
      { status := 202, enqueued := [jobA], ranInRequest := [] } := by
  decide

theorem stageClone_token_independent (env : PipelineEnv) (job : BuildJob) (ps : PS)
    (t1 t2 : String) :
    (stageClone env (some t1) job ps).ps = (stageClone env (some t2) job ps).ps ∧
      (stageClone env (some t1) job ps).errMsg = (stageClone env (some t2) job ps).errMsg := by
  obtain ⟨n, gd, ui, uf, mr, gcf, gco, gch, cE, cC, yK, dE, dC, dO, dOk, eOk, mG, mU,
    acc, reg, pOk⟩ := env
  cases mr <;> cases gcf <;> cases gco <;> cases gch <;> exact ⟨rfl, rfl⟩

/-- C9: credential noninterference. Two `ExecuteBuild` runs that differ
only in the plaintext GitHub token produce identical observables — the
same outcome, the same persisted deployment snapshots (build logs
included), the same final logger contents, and the same
working-directory state. The token influences only the subprocess argv,
where it is embedded in the userinfo of the authenticated clone URL by
`injectGitHubToken`; no log message interpolates it, and the clone
subprocess output (the only output that could echo the URL) is
discarded by `cmd.Run()`, never logged. -/
theorem c9_credential_noninterference (env : PipelineEnv) (job : BuildJob) (t1 t2 : String) :
    (executeBuild env (some t1) job).observables =
      (executeBuild env (some t2) job).observables := by
  cases h : executePre env job with
  | error t => simp only [executeBuild, h]
  | ok w =>
    simp only [executeBuild, h]
    rw [(stageClone_token_independent env job w.1 t1 t2).1,
      (stageClone_token_independent env job w.1 t1 t2).2]
    rfl

/-- C10: when the deployment lookup at the start of `ExecuteBuild` fails
or returns no record, the call returns the `deployment not found` error
having attempted no write to the deployment store, run no stage (no
subprocess was invoked), and created no working directory; the only side
effect is one `init`-stage error entry in the build logger. -/
theorem c10_missing_deployment_pure_error (env : PipelineEnv) (tok : Option String)
    (job : BuildJob) (h : env.getDeployment = none) :
    executeBuild env tok job =
      { outcome := ExecOutcome.err "deployment not found",
        writes := [],
        logs := [⟨env.now, "init", "error", "Failed to fetch deployment from database"⟩],
        workDirExists := false, commands := [] } := by
  simp [executeBuild, executePre, h, PS.addLog]

/-- Witness for `c10_missing_deployment_pure_error` at a concrete
environment whose deployment lookup returns nothing. -/
theorem c10_missing_deployment_pure_error_witness :
    executeBuild { envAllOk with getDeployment := none } (some "token") jobA =
      { outcome := ExecOutcome.err "deployment not found",
        writes := [],
        logs := [⟨0, "init", "error", "Failed to fetch deployment from database"⟩],
        workDirExists := false, commands := [] } :=
  c10_missing_deployment_pure_error _ _ _ rfl

